import Mathlib

/-!
Verification of the two point-cloud utility scripts in this repository:
`blender/script 3edc5d7324.py` (the Blender importer) and
`Assets/Data/Datasets/Totori/PLY_WithMotion/plyreaed.py` (the inspector).

Files are modelled as lists of byte values (`List Nat`, each < 256).
32-bit little-endian float fields are modelled by their 4-byte bit
patterns (a `Nat` < 2^32): the scripts never do arithmetic on the
position/velocity floats, they only reinterpret and copy raw bytes, so
the bit-pattern model is exact.  The 8-bit color channels are `Nat`
values < 256.  The only numeric computation on parsed data is the
division of a color channel by 255 with alpha fixed to 1.0; it is
modelled over `ℚ` (at the channel values the claims mention, 0 and 255,
the IEEE division the script performs is exact, so the rational model
agrees with the float computation there).
-/

/-! ### Byte-level primitives shared by both flows -/

/-- ASCII whitespace bytes stripped by Python `bytes.strip()`. -/
def isPySpaceByte (b : Nat) : Bool :=
  b = 32 || b = 9 || b = 10 || b = 13 || b = 11 || b = 12

/-- Python `bytes.strip()`: drop leading and trailing ASCII whitespace. -/
def pyStripBytes (l : List Nat) : List Nat :=
  ((l.dropWhile isPySpaceByte).reverse.dropWhile isPySpaceByte).reverse

/-- The bytes of the sentinel token `b'end_header'`. -/
def endHeaderBytes : List Nat :=
  [101, 110, 100, 95, 104, 101, 97, 100, 101, 114]

/-- Python binary-mode `f.readline()` on the remaining bytes of the file:
returns the line up to and including the first `\n` (byte 10), the whole
remainder if no `\n` occurs, and the empty bytes object at end-of-file. -/
def readLine1 : List Nat → List Nat × List Nat
  | [] => ([], [])
  | b :: bs =>
    if b = 10 then ([10], bs)
    else
      let (l, r) := readLine1 bs
      (b :: l, r)

/-! ### Header scanner (importer script, lines 13–17)

```
line = b''
while line.strip() != b'end_header':
    line = f.readline()
header_end = f.tell()
```

The loop state is the last line read, the unread remainder, and the
number of bytes consumed so far (= `f.tell()`).  The loop has no exit on
end-of-file: `readline` at EOF returns `b''` forever, so when the
sentinel is missing the state repeats and the loop never terminates.
The embedding makes the iteration count explicit as fuel; `none` means
the loop is still running after that many iterations. -/

def scanLoop : Nat → List Nat → List Nat → Nat → Option Nat
  | 0, _, _, _ => none
  | fuel + 1, line, rest, consumed =>
    if pyStripBytes line = endHeaderBytes then some consumed
    else
      let (l, r) := readLine1 rest
      scanLoop fuel l r (consumed + l.length)

/-- The header scan of the importer: run the loop from the start of the
file with the given iteration budget; the returned offset is `f.tell()`
after the loop, the byte offset immediately following the sentinel
line. -/
def headerScan (file : List Nat) (fuel : Nat) : Option Nat :=
  scanLoop fuel [] file 0

/-- A well-formed header line: nonempty, terminated by `\n`, with no
interior `\n` (so `readline` returns exactly this line). -/
def LineWF (l : List Nat) : Prop :=
  l ≠ [] ∧ l.getLast? = some 10 ∧ 10 ∉ l.dropLast

instance (l : List Nat) : Decidable (LineWF l) := by
  unfold LineWF
  infer_instance

theorem readLine1_cons_ne (b : Nat) (bs : List Nat) (hb : b ≠ 10) :
    readLine1 (b :: bs) = (b :: (readLine1 bs).1, (readLine1 bs).2) := by
  simp [readLine1, hb]

theorem readLine1_exact (l r : List Nat) (h : LineWF l) :
    readLine1 (l ++ r) = (l, r) := by
  induction l with
  | nil => exact absurd rfl h.1
  | cons b bs ih =>
    obtain ⟨-, hlast, hnot⟩ := h
    cases bs with
    | nil =>
      simp only [List.getLast?_singleton, Option.some.injEq] at hlast
      simp [readLine1, hlast]
    | cons c cs =>
      have hb : b ≠ 10 := by
        intro hb
        exact hnot (by simp [List.dropLast, hb])
      have hwf : LineWF (c :: cs) := by
        refine ⟨by simp, ?_, ?_⟩
        · simpa [List.getLast?_cons_cons] using hlast
        · intro hm
          exact hnot (by simp [List.dropLast, hm])
      have key := ih hwf
      rw [List.cons_append, readLine1_cons_ne b _ hb, key]

theorem pyStripBytes_nil : pyStripBytes [] = [] := rfl

theorem scanLoop_empty_rest (c : Nat) :
    ∀ fuel, scanLoop fuel [] [] c = none := by
  intro fuel
  induction fuel with
  | zero => rfl
  | succ n ih =>
    simpa [scanLoop, readLine1, pyStripBytes_nil, endHeaderBytes] using ih

theorem scanLoop_succ (fuel : Nat) (line rest : List Nat) (c : Nat) :
    scanLoop (fuel + 1) line rest c =
      if pyStripBytes line = endHeaderBytes then some c
      else scanLoop fuel (readLine1 rest).1 (readLine1 rest).2
        (c + (readLine1 rest).1.length) := by
  cases h : readLine1 rest with
  | mk l r => simp [scanLoop, h]

/-- Running the scan loop over a decomposition of the unread bytes into
well-formed lines, where only the last line strips to the sentinel,
lands exactly at the end of that last line. -/
theorem scanLoop_finds (ls : List (List Nat)) :
    ∀ (body line : List Nat) (c fuel : Nat),
    ls ≠ [] →
    (∀ l ∈ ls, LineWF l) →
    (∀ l ∈ ls.dropLast, pyStripBytes l ≠ endHeaderBytes) →
    ls.getLast?.map pyStripBytes = some endHeaderBytes →
    pyStripBytes line ≠ endHeaderBytes →
    ls.length + 1 ≤ fuel →
    scanLoop fuel line (ls.flatten ++ body) c = some (c + ls.flatten.length) := by
  induction ls with
  | nil => intro _ _ _ _ hne; exact absurd rfl hne
  | cons l0 ls ih =>
    intro body line c fuel _ hwf hmid hlast hline hfuel
    obtain ⟨fuel, rfl⟩ : ∃ f, fuel = f + 1 := ⟨fuel - 1, by omega⟩
    rw [scanLoop_succ, if_neg hline, List.flatten_cons, List.append_assoc,
      readLine1_exact l0 _ (hwf l0 (by simp))]
    cases ls with
    | nil =>
      have hs : pyStripBytes l0 = endHeaderBytes := by
        simpa using hlast
      obtain ⟨fuel, rfl⟩ : ∃ f, fuel = f + 1 :=
        ⟨fuel - 1, by simp at hfuel; omega⟩
      rw [scanLoop_succ, if_pos hs]
      simp
    | cons l1 ls1 =>
      have h0 : pyStripBytes l0 ≠ endHeaderBytes :=
        hmid l0 (by simp [List.dropLast])
      have step := ih body l0 (c + l0.length) fuel (by simp)
        (fun l hl => hwf l (by simp [hl]))
        (fun l hl => hmid l (by simp [List.dropLast] at hl ⊢; exact Or.inr hl))
        (by simpa [List.getLast?_cons_cons] using hlast)
        h0 (by simp at hfuel ⊢; omega)
      rw [step]
      simp [Nat.add_assoc]

/-- Claim C3: for a file whose header is a sequence of newline-terminated
lines of which exactly the last one strips to `end_header`, ending at
byte offset `H = ls.flatten.length`, the header scanner returns exactly
`H`, the offset immediately following the sentinel line — for every
iteration budget large enough for the loop to get there. -/
theorem header_scanner_returns_sentinel_offset
    (ls : List (List Nat)) (body : List Nat) (fuel : Nat)
    (hne : ls ≠ [])
    (hwf : ∀ l ∈ ls, LineWF l)
    (hmid : ∀ l ∈ ls.dropLast, pyStripBytes l ≠ endHeaderBytes)
    (hlast : ls.getLast?.map pyStripBytes = some endHeaderBytes)
    (hfuel : ls.length + 1 ≤ fuel) :
    headerScan (ls.flatten ++ body) fuel = some ls.flatten.length := by
  have h := scanLoop_finds ls body [] 0 fuel hne hwf hmid hlast
    (by decide) hfuel
  simpa [headerScan] using h

/-- Witness for C3: the file `"ply\nend_header\n"` followed by three junk
bytes; the scanner returns 15, the offset just after the sentinel
line's newline. -/
theorem header_scanner_returns_sentinel_offset_witness :
    headerScan (([[112, 108, 121, 10],
        [101, 110, 100, 95, 104, 101, 97, 100, 101, 114, 10]] :
        List (List Nat)).flatten ++ [1, 2, 3]) 3 =
      some ([[112, 108, 121, 10],
        [101, 110, 100, 95, 104, 101, 97, 100, 101, 114, 10]] :
        List (List Nat)).flatten.length :=
  header_scanner_returns_sentinel_offset _ _ _ (by decide)
    (by decide) (by decide) (by decide) (by decide)

/-- A file containing no line that strips to the sentinel:
`"ply\nhi"`. -/
def noSentinelFile : List Nat := [112, 108, 121, 10, 104, 105]

/-- Claim C2 (the code as written): on a file with no `end_header` line
the scan loop never terminates — after reaching end-of-file, `readline`
returns the empty bytes object forever and the loop state repeats, so
no iteration budget whatsoever makes the scan return.  The code hangs
instead of raising a malformed-file error. -/
theorem missing_sentinel_scan_never_terminates :
    ∀ fuel, headerScan noSentinelFile fuel = none := by
  have key : ∀ m, scanLoop (m + 3) [] noSentinelFile 0 = scanLoop m [] [] 6 := by
    intro m
    show scanLoop ((m + 2) + 1) [] noSentinelFile 0 = scanLoop m [] [] 6
    rw [scanLoop_succ, if_neg (by decide)]
    show scanLoop ((m + 1) + 1) [112, 108, 121, 10] [104, 105] (0 + 4) =
      scanLoop m [] [] 6
    rw [scanLoop_succ, if_neg (by decide)]
    show scanLoop (m + 1) [104, 105] [] (0 + 4 + 2) = scanLoop m [] [] 6
    rw [scanLoop_succ, if_neg (by decide)]
    show scanLoop m [] [] (0 + 4 + 2 + 0) = scanLoop m [] [] 6
    norm_num
  intro fuel
  match fuel with
  | 0 => rfl
  | 1 => rfl
  | 2 => rfl
  | (n + 3) =>
    show scanLoop (n + 3) [] noSentinelFile 0 = none
    rw [key n]
    exact scanLoop_empty_rest 6 n

/-! ### Record parser (importer script, lines 20–31)

```
dt = np.dtype([('x','<f4'),('y','<f4'),('z','<f4'),
               ('red','u1'),('green','u1'),('blue','u1'),
               ('vx','<f4'),('vy','<f4'),('vz','<f4')])
data = np.fromfile(f, dtype=dt)
```

One record is 27 packed bytes.  `np.fromfile` with the default
`count=-1` reads as many complete items as the remaining bytes hold
and silently ignores a trailing partial item; the embedding mirrors
that exactly.  Float fields are carried as their little-endian 4-byte
bit patterns. -/

structure PointRecord where
  x : Nat
  y : Nat
  z : Nat
  red : Nat
  green : Nat
  blue : Nat
  vx : Nat
  vy : Nat
  vz : Nat
  deriving DecidableEq, Repr

/-- Assemble a 32-bit little-endian value from four bytes. -/
def le32 (a b c d : Nat) : Nat :=
  a + 256 * b + 65536 * c + 16777216 * d

/-- `np.fromfile(f, dtype=dt)` on the bytes after the header: read
complete 27-byte items while they last; a trailing partial item is
dropped without any error.  Per item, bytes 0–11 are x,y,z (little-
endian float32 bit patterns), bytes 12–14 are r,g,b, bytes 15–26 are
vx,vy,vz. -/
def parseRecords : List Nat → List PointRecord
  | b0 :: b1 :: b2 :: b3 :: b4 :: b5 :: b6 :: b7 :: b8 :: b9 :: b10 :: b11 ::
    b12 :: b13 :: b14 :: b15 :: b16 :: b17 :: b18 :: b19 :: b20 :: b21 ::
    b22 :: b23 :: b24 :: b25 :: b26 :: rest =>
    { x := le32 b0 b1 b2 b3
      y := le32 b4 b5 b6 b7
      z := le32 b8 b9 b10 b11
      red := b12
      green := b13
      blue := b14
      vx := le32 b15 b16 b17 b18
      vy := le32 b19 b20 b21 b22
      vz := le32 b23 b24 b25 b26 } :: parseRecords rest
  | _ => []

/-- Serialize a 32-bit value to four little-endian bytes. -/
def encodeLE32 (w : Nat) : List Nat :=
  [w % 256, w / 256 % 256, w / 65536 % 256, w / 16777216 % 256]

/-- The 27-byte wire layout of one record. -/
def encodeRecord (p : PointRecord) : List Nat :=
  encodeLE32 p.x ++ encodeLE32 p.y ++ encodeLE32 p.z ++
    [p.red, p.green, p.blue] ++
    encodeLE32 p.vx ++ encodeLE32 p.vy ++ encodeLE32 p.vz

/-- Field ranges of a representable record: float bit patterns fit in
32 bits, color channels in 8 bits. -/
def recordWF (p : PointRecord) : Prop :=
  p.x < 4294967296 ∧ p.y < 4294967296 ∧ p.z < 4294967296 ∧
  p.red < 256 ∧ p.green < 256 ∧ p.blue < 256 ∧
  p.vx < 4294967296 ∧ p.vy < 4294967296 ∧ p.vz < 4294967296

instance (p : PointRecord) : Decidable (recordWF p) := by
  unfold recordWF
  infer_instance

theorem encodeRecord_length (p : PointRecord) :
    (encodeRecord p).length = 27 := by
  simp [encodeRecord, encodeLE32]

theorem le32_encodeLE32 (w : Nat) (hw : w < 4294967296) :
    le32 (w % 256) (w / 256 % 256) (w / 65536 % 256)
      (w / 16777216 % 256) = w := by
  unfold le32
  omega

/-- One complete wire record at the head of the region parses back to
the record, and parsing continues on the remainder. -/
theorem parseRecords_encode_cons (p : PointRecord) (rest : List Nat)
    (h : recordWF p) :
    parseRecords (encodeRecord p ++ rest) = p :: parseRecords rest := by
  obtain ⟨h1, h2, h3, h4, h5, h6, h7, h8, h9⟩ := h
  simp only [encodeRecord, encodeLE32, List.cons_append, List.nil_append]
  simp only [parseRecords]
  rw [le32_encodeLE32 _ h1, le32_encodeLE32 _ h2, le32_encodeLE32 _ h3,
    le32_encodeLE32 _ h7, le32_encodeLE32 _ h8, le32_encodeLE32 _ h9]

/-- Bytes of a string, for spelling out headers. -/
def strBytes (s : String) : List Nat := s.data.map Char.toNat

/-- The synthetic header `"ply\nformat binary_little_endian 1.0\nend_header\n"`. -/
def syntheticHeader : List Nat :=
  strBytes "ply\nformat binary_little_endian 1.0\nend_header\n"

def sampleRec1 : PointRecord := ⟨1, 2, 3, 10, 20, 30, 4, 5, 6⟩

def sampleRec2 : PointRecord :=
  ⟨1065353216, 3212836864, 7, 255, 0, 128, 100, 200, 300⟩

def sampleRec3 : PointRecord := ⟨11, 22, 33, 1, 2, 3, 44, 55, 66⟩

/-- The synthetic header followed by exactly three distinct packed
records. -/
def syntheticFile : List Nat :=
  syntheticHeader ++
    ([sampleRec1, sampleRec2, sampleRec3].map encodeRecord).flatten

/-- Claim C4: a post-header region that is exactly `n` packed 27-byte
records parses to exactly those `n` records, field-for-field, in input
order; in particular the synthetic `ply` file with three distinct
records yields `n = 3` with matching fields (its header ends at byte
47, found by the scanner). -/
theorem parser_yields_exact_records (rs : List PointRecord)
    (h : ∀ p ∈ rs, recordWF p) :
    parseRecords ((rs.map encodeRecord).flatten) = rs ∧
    headerScan syntheticFile 4 = some syntheticHeader.length ∧
    parseRecords (syntheticFile.drop syntheticHeader.length) =
      [sampleRec1, sampleRec2, sampleRec3] ∧
    (parseRecords (syntheticFile.drop syntheticHeader.length)).length = 3 := by
  have main : ∀ (l : List PointRecord), (∀ p ∈ l, recordWF p) →
      parseRecords ((l.map encodeRecord).flatten) = l := by
    intro l
    induction l with
    | nil => intro _; rfl
    | cons p ps ih =>
      intro hl
      simp only [List.map_cons, List.flatten_cons]
      rw [parseRecords_encode_cons p _ (hl p (by simp)),
        ih (fun q hq => hl q (by simp [hq]))]
  exact ⟨main rs h, by decide, by decide, by decide⟩

/-- Witness for C4: the three sample records are well-formed and parse
back from their packed encoding. -/
theorem parser_yields_exact_records_witness :
    (∀ p ∈ [sampleRec1, sampleRec2, sampleRec3], recordWF p) ∧
    parseRecords
        (([sampleRec1, sampleRec2, sampleRec3].map encodeRecord).flatten) =
      [sampleRec1, sampleRec2, sampleRec3] :=
  ⟨by decide, (parser_yields_exact_records _ (by decide)).1⟩

/-- A post-header region of 28 bytes: one complete record plus one
stray trailing byte. -/
def misalignedRegion : List Nat := encodeRecord sampleRec1 ++ [9]

/-- Claim C1 (the code as written): on a post-header region whose
length is not a multiple of 27, `np.fromfile` does not fail at all — it
parses the complete records and silently drops the trailing partial
bytes.  Here 28 bytes yield one record and the stray byte vanishes
without any error. -/
theorem misaligned_region_silently_truncated :
    misalignedRegion.length % 27 = 1 ∧
    parseRecords misalignedRegion = [sampleRec1] := by decide

/-! ### Scene importer (importer script, lines 8–9 and 38–61)

The Blender API (`bpy`) is the external host.  It is modelled by:
a scene that is a list of named objects (Blender object names are
unique, so at most one object carries the name `"PointCloud"`); object
removal (`bpy.data.objects.remove` after the name-containment check);
mesh construction from the position array with no edges and no faces
(`from_pydata(positions, [], [])`); and named per-point attributes
created in the order the script creates them.  The color attribute
divides each channel by 255 and appends alpha 1.0; the division is
modelled over `ℚ` (exact at the boundary channel values 0 and 255,
where the IEEE division the script performs is also exact). -/

/-- One RGBA color-attribute entry as built from a record's channels:
`(r/255, g/255, b/255, 1)`. -/
def colorEntry (r g b : Nat) : ℚ × ℚ × ℚ × ℚ :=
  ((r : ℚ) / 255, (g : ℚ) / 255, (b : ℚ) / 255, 1)

/-- Claim C5: the color-attribute derivation divides each 8-bit channel
by 255 and fixes alpha to 1.0, and the mapping is exact at the
boundaries: channel 0 maps to exactly 0 and channel 255 to exactly 1
(at these inputs the rational values coincide with the IEEE float
division the script performs, which is exact there). -/
theorem color_derivation_exact_at_boundaries :
    colorEntry 0 0 0 = (0, 0, 0, 1) ∧
    colorEntry 255 255 255 = (1, 1, 1, 1) := by
  exact ⟨by norm_num [colorEntry], by norm_num [colorEntry]⟩

/-- Data carried by one named per-point attribute. -/
inductive AttrData
  | floatColor (entries : List (ℚ × ℚ × ℚ × ℚ))
  | float (entries : List Nat)
  deriving DecidableEq

/-- Number of per-point entries of an attribute. -/
def AttrData.size : AttrData → Nat
  | .floatColor es => es.length
  | .float es => es.length

/-- A Blender mesh as the script builds it: point-only geometry plus
named custom attributes. -/
structure HostMesh where
  positions : List (Nat × Nat × Nat)
  edges : List (Nat × Nat)
  faces : List (List Nat)
  attrs : List (String × AttrData)
  deriving DecidableEq

/-- A named object in the Blender scene. -/
structure HostObject where
  name : String
  mesh : HostMesh
  deriving DecidableEq

/-- Lines 8–9: `if "PointCloud" in bpy.data.objects:
bpy.data.objects.remove(bpy.data.objects["PointCloud"], do_unlink=True)`
— remove the (unique) object of that name when present. -/
def removeExisting (scene : List HostObject) : List HostObject :=
  if scene.any (fun o => o.name = "PointCloud") then
    scene.eraseP (fun o => o.name = "PointCloud")
  else scene

/-- `np.stack([data['x'], data['y'], data['z']], axis=1)` — the vertex
array handed to `from_pydata`. -/
def positionColumn (recs : List PointRecord) : List (Nat × Nat × Nat) :=
  recs.map (fun p => (p.x, p.y, p.z))

/-- The RGBA rows of the `colors` array (channel/255 with alpha 1). -/
def colorColumn (recs : List PointRecord) : List (ℚ × ℚ × ℚ × ℚ) :=
  recs.map (fun p => colorEntry p.red p.green p.blue)

def vxColumn (recs : List PointRecord) : List Nat :=
  recs.map (fun p => p.vx)

def vyColumn (recs : List PointRecord) : List Nat :=
  recs.map (fun p => p.vy)

def vzColumn (recs : List PointRecord) : List Nat :=
  recs.map (fun p => p.vz)

/-- Lines 38–61: build the new `"PointCloud"` object from the parsed
records — vertices from (x, y, z), no edges, no faces, then the
`color` FLOAT_COLOR attribute and the `vx`, `vy`, `vz` FLOAT
attributes, all on the POINT domain. -/
def buildPointCloud (recs : List PointRecord) : HostObject :=
  { name := "PointCloud"
    mesh :=
    { positions := positionColumn recs
      edges := []
      faces := []
      attrs :=
        [("color", .floatColor (colorColumn recs)),
          ("vx", .float (vxColumn recs)),
          ("vy", .float (vyColumn recs)),
          ("vz", .float (vzColumn recs))] } }

/-- The whole importer effect on the scene: remove any pre-existing
`"PointCloud"` object, then link the newly built one. -/
def importScene (recs : List PointRecord) (scene : List HostObject) :
    List HostObject :=
  removeExisting scene ++ [buildPointCloud recs]

theorem filter_eraseP_eq_nil {α : Type} (p : α → Bool) :
    ∀ (l : List α), l.countP p ≤ 1 → (l.eraseP p).filter p = [] := by
  intro l
  induction l with
  | nil => intro _; rfl
  | cons a l ih =>
    intro hc
    by_cases ha : p a
    · rw [List.eraseP_cons_of_pos ha]
      rw [List.countP_cons, if_pos ha] at hc
      have h0 : l.countP p = 0 := by omega
      rw [← List.length_eq_zero, ← List.countP_eq_length_filter]
      exact h0
    · rw [List.eraseP_cons_of_neg (by simpa using ha),
        List.filter_cons_of_neg (by simpa using ha)]
      rw [List.countP_cons, if_neg ha] at hc
      exact ih (by omega)

theorem removeExisting_clears (scene : List HostObject)
    (h : scene.countP (fun o => o.name = "PointCloud") ≤ 1) :
    (removeExisting scene).filter (fun o => o.name = "PointCloud") = [] := by
  unfold removeExisting
  by_cases hany : scene.any (fun o => o.name = "PointCloud")
  · rw [if_pos hany]
    exact filter_eraseP_eq_nil _ scene h
  · rw [if_neg hany, List.filter_eq_nil_iff]
    intro a ha hpa
    exact hany (List.any_eq_true.mpr ⟨a, ha, hpa⟩)

/-- Claim C6: a successful import of `n` parsed records first removes
any pre-existing `"PointCloud"` object (Blender object names are
unique, hence the at-most-one hypothesis), then leaves the scene with
exactly one `"PointCloud"` object; that object carries the position
geometry attribute plus exactly the four custom per-point attributes
`color`, `vx`, `vy`, `vz`, all of length `n`, and entry `i` of every
attribute is derived from record `i`. -/
theorem importer_single_object_with_aligned_attributes
    (recs : List PointRecord) (scene : List HostObject)
    (h : scene.countP (fun o => o.name = "PointCloud") ≤ 1) :
    (importScene recs scene).filter (fun o => o.name = "PointCloud") =
      [buildPointCloud recs] ∧
    (buildPointCloud recs).mesh.attrs.map Prod.fst =
      ["color", "vx", "vy", "vz"] ∧
    (buildPointCloud recs).mesh.positions.length = recs.length ∧
    (buildPointCloud recs).mesh.edges = [] ∧
    (buildPointCloud recs).mesh.faces = [] ∧
    (∀ a ∈ (buildPointCloud recs).mesh.attrs, a.2.size = recs.length) ∧
    (∀ (i : Nat) (r : PointRecord), recs[i]? = some r →
      (buildPointCloud recs).mesh.positions[i]? = some (r.x, r.y, r.z) ∧
      (colorColumn recs)[i]? = some (colorEntry r.red r.green r.blue) ∧
      (vxColumn recs)[i]? = some r.vx ∧
      (vyColumn recs)[i]? = some r.vy ∧
      (vzColumn recs)[i]? = some r.vz) := by
  refine ⟨?_, rfl, ?_, rfl, rfl, ?_, ?_⟩
  · rw [importScene, List.filter_append, removeExisting_clears scene h]
    rfl
  · simp [buildPointCloud, positionColumn]
  · intro a ha
    simp only [buildPointCloud, List.mem_cons] at ha
    rcases ha with rfl | rfl | rfl | rfl | ha
    · simp [AttrData.size, colorColumn]
    · simp [AttrData.size, vxColumn]
    · simp [AttrData.size, vyColumn]
    · simp [AttrData.size, vzColumn]
    · simp at ha
  · intro i r hr
    refine ⟨?_, ?_, ?_, ?_, ?_⟩ <;>
      simp [buildPointCloud, positionColumn, colorColumn, vxColumn,
        vyColumn, vzColumn, List.getElem?_map, hr]

/-- A pre-existing stand-in `"PointCloud"` object for the witness. -/
def staleObject : HostObject :=
  { name := "PointCloud"
    mesh := { positions := [], edges := [], faces := [], attrs := [] } }

/-- Witness for C6: importing one record into a scene already holding a
`"PointCloud"` object leaves exactly the newly built object under that
name. -/
theorem importer_single_object_with_aligned_attributes_witness :
    ([staleObject].countP (fun o => o.name = "PointCloud") ≤ 1) ∧
    (importScene [sampleRec1] [staleObject]).filter
        (fun o => o.name = "PointCloud") =
      [buildPointCloud [sampleRec1]] :=
  ⟨by decide,
    (importer_single_object_with_aligned_attributes [sampleRec1]
      [staleObject] (by decide)).1⟩

/-! ### Inspector script (`plyreaed.py`)

```
if len(sys.argv) < 2:
    print("Usage: python read_ply.py <filename> [num_lines]")
    sys.exit(1)
filename = sys.argv[1]
num_line = int(sys.argv[2]) if len(sys.argv) > 2 else 5
print(f"Reading: {filename}")
ply = PlyData.read(filename)
...
for v in ply['vertex'].data[:num_line]:
    print(v)
```

`PlyData.read` is the external `plyfile` library; the parsed vertex
data is abstracted as the list of records the file holds.  What the
script itself does is modelled exactly: the argv-length check and
`sys.exit(1)`, the `int()` conversion of the optional second argument
(which raises an uncaught `ValueError` on a non-integer string, before
the file is ever opened), and the Python slice `data[:num_line]`
(clamping, with negative-stop semantics). -/

/-- Whitespace characters `int()` strips before parsing. -/
def isPyWsChar (c : Char) : Bool :=
  c = ' ' || c = '\t' || c = '\n' || c = '\r' || c = '\x0b' || c = '\x0c'

def isDigitCh (c : Char) : Bool :=
  48 ≤ c.toNat && c.toNat ≤ 57

def digitVal (c : Char) : Nat := c.toNat - 48

/-- Digit run with single underscores allowed between digits, as in
Python integer literals accepted by `int()`. -/
def parseDigitsGo (acc : Nat) : List Char → Option Nat
  | [] => some acc
  | c :: cs =>
    if isDigitCh c then parseDigitsGo (10 * acc + digitVal c) cs
    else if c = '_' then
      match cs with
      | c2 :: cs2 =>
        if isDigitCh c2 then parseDigitsGo (10 * acc + digitVal c2) cs2
        else none
      | [] => none
    else none

def parseDigits : List Char → Option Nat
  | [] => none
  | c :: cs => if isDigitCh c then parseDigitsGo (digitVal c) cs else none

def pyStripChars (l : List Char) : List Char :=
  ((l.dropWhile isPyWsChar).reverse.dropWhile isPyWsChar).reverse

/-- Python `int(s)` on a string: strip whitespace, optional sign,
decimal digits; `none` models the `ValueError` it raises otherwise. -/
def pyInt (s : String) : Option Int :=
  match pyStripChars s.data with
  | [] => none
  | c :: cs =>
    if c = '-' then (parseDigits cs).map (fun n => -(n : Int))
    else if c = '+' then (parseDigits cs).map (fun n => (n : Int))
    else (parseDigits (c :: cs)).map (fun n => (n : Int))

/-- Python `l[:k]`: for `k ≥ 0` the first `min k (len l)` elements, for
`k < 0` everything but the last `|k|` elements (clamped at zero). -/
def pySlicePrefix {α : Type} (k : Int) (l : List α) : List α :=
  if 0 ≤ k then l.take k.toNat else l.take ((l.length : Int) + k).toNat

/-- How a run of the inspector ends. -/
inductive ExitKind
  | normal
  | sysExit (code : Nat)
  | uncaughtValueError
  deriving DecidableEq

/-- Observable outcome of one inspector run: whether the usage line was
printed, whether the `Reading:` line was printed, how many per-record
lines were printed, whether the file was opened/read, and how the
process ended. -/
structure InspectorRun where
  usagePrinted : Bool
  readingPrinted : Bool
  recordLines : Nat
  fileRead : Bool
  exitKind : ExitKind
  deriving DecidableEq

/-- The inspector `plyreaed.py`, over its argument vector (including
the program name in position 0) and the record sequence held by the
file named by `argv[1]`. -/
def inspectorMain (argv : List String) (recs : List PointRecord) :
    InspectorRun :=
  if argv.length < 2 then
    { usagePrinted := true
      readingPrinted := false
      recordLines := 0
      fileRead := false
      exitKind := .sysExit 1 }
  else
    match (if 2 < argv.length then pyInt (argv.getD 2 "") else some 5) with
    | none =>
      { usagePrinted := false
        readingPrinted := false
        recordLines := 0
        fileRead := false
        exitKind := .uncaughtValueError }
    | some numLine =>
      { usagePrinted := false
        readingPrinted := true
        recordLines := (pySlicePrefix numLine recs).length
        fileRead := true
        exitKind := .normal }

/-- Claim C7: invoked without a filename argument the inspector prints
the usage message and terminates through `sys.exit` with a non-zero
status. -/
theorem missing_filename_prints_usage_and_exits_nonzero
    (argv : List String) (recs : List PointRecord)
    (h : argv.length < 2) :
    (inspectorMain argv recs).usagePrinted = true ∧
    ∃ c, (inspectorMain argv recs).exitKind = ExitKind.sysExit c ∧ c ≠ 0 := by
  rw [inspectorMain, if_pos h]
  exact ⟨rfl, 1, rfl, one_ne_zero⟩

/-- Witness for C7: a bare invocation (argv holds only the program
name) on a file of two records. -/
theorem missing_filename_prints_usage_and_exits_nonzero_witness :
    (inspectorMain ["plyreaed.py"] [sampleRec1, sampleRec2]).usagePrinted =
      true ∧
    ∃ c, (inspectorMain ["plyreaed.py"]
      [sampleRec1, sampleRec2]).exitKind = ExitKind.sysExit c ∧ c ≠ 0 :=
  missing_filename_prints_usage_and_exits_nonzero _ _ (by decide)

/-- With three arguments the run is determined by `int(sys.argv[2])`:
failure is the uncaught `ValueError` (file never opened), success reads
the file and prints the sliced records. -/
theorem inspectorMain_three_eq (p f s : String) (recs : List PointRecord) :
    inspectorMain [p, f, s] recs =
      match pyInt s with
      | none =>
        { usagePrinted := false
          readingPrinted := false
          recordLines := 0
          fileRead := false
          exitKind := .uncaughtValueError }
      | some n =>
        { usagePrinted := false
          readingPrinted := true
          recordLines := (pySlicePrefix n recs).length
          fileRead := true
          exitKind := .normal } := rfl

/-- Claim C8: with a valid count argument `N ≤ n` the inspector prints
exactly `N` record lines and ends normally; with the argument absent it
prints 5 lines (on a file of at least 5 records). -/
theorem prints_one_line_per_requested_record (p f s : String)
    (recs : List PointRecord) (N : Int) (hs : pyInt s = some N)
    (h0 : 0 ≤ N) (hle : N.toNat ≤ recs.length) :
    (inspectorMain [p, f, s] recs).recordLines = N.toNat ∧
    (inspectorMain [p, f, s] recs).exitKind = ExitKind.normal ∧
    (5 ≤ recs.length → (inspectorMain [p, f] recs).recordLines = 5) := by
  have h3 := inspectorMain_three_eq p f s recs
  rw [hs] at h3
  rw [h3]
  refine ⟨?_, rfl, ?_⟩
  · show (pySlicePrefix N recs).length = N.toNat
    rw [pySlicePrefix, if_pos h0]
    simp only [List.length_take]
    omega
  · intro h5
    show (pySlicePrefix 5 recs).length = 5
    rw [pySlicePrefix, if_pos (by norm_num)]
    simp only [List.length_take, Int.toNat_ofNat]
    omega

/-- Witness for C8: `<file> 2` on a file of 10 records prints exactly
2 record lines. -/
theorem prints_one_line_per_requested_record_witness :
    pyInt "2" = some 2 ∧
    (inspectorMain ["plyreaed.py", "frame.ply", "2"]
      (List.replicate 10 sampleRec1)).recordLines = (2 : Int).toNat :=
  ⟨by decide,
    (prints_one_line_per_requested_record _ _ _ _ 2 (by decide) (by decide)
      (by decide)).1⟩

/-- Claim C9: a second argument that `int()` cannot parse makes the
inspector die with the uncaught `ValueError` before the file is opened
and without printing the usage message; a parseable zero or negative
value is never rejected — it flows into the slice and the run ends
normally. -/
theorem non_integer_count_raises_before_open (p f s : String)
    (recs : List PointRecord) (hbad : pyInt s = none) :
    (inspectorMain [p, f, s] recs).exitKind = ExitKind.uncaughtValueError ∧
    (inspectorMain [p, f, s] recs).usagePrinted = false ∧
    (inspectorMain [p, f, s] recs).fileRead = false ∧
    (∀ (s2 : String) (N : Int), pyInt s2 = some N → N ≤ 0 →
      (inspectorMain [p, f, s2] recs).exitKind = ExitKind.normal ∧
      (inspectorMain [p, f, s2] recs).recordLines =
        (pySlicePrefix N recs).length) := by
  have h3 := inspectorMain_three_eq p f s recs
  rw [hbad] at h3
  refine ⟨by rw [h3], by rw [h3], by rw [h3], ?_⟩
  intro s2 N hs2 _
  have h4 := inspectorMain_three_eq p f s2 recs
  rw [hs2] at h4
  exact ⟨by rw [h4], by rw [h4]⟩

/-- Witness for C9: `"abc"` raises the conversion error with the file
unopened, while `"-2"` is accepted and the run ends normally. -/
theorem non_integer_count_raises_before_open_witness :
    pyInt "abc" = none ∧
    (inspectorMain ["plyreaed.py", "frame.ply", "abc"]
      [sampleRec1]).exitKind = ExitKind.uncaughtValueError ∧
    (inspectorMain ["plyreaed.py", "frame.ply", "-2"]
      [sampleRec1]).exitKind = ExitKind.normal :=
  ⟨by decide,
    (non_integer_count_raises_before_open _ _ _ _ (by decide)).1,
    ((non_integer_count_raises_before_open "plyreaed.py" "frame.ply" "abc"
      [sampleRec1] (by decide)).2.2.2 "-2" (-2) (by decide) (by decide)).1⟩

/-- Claim C10: a requested count larger than the record count clamps —
the slice returns all `n` records, the inspector prints exactly `n`
record lines and terminates normally. -/
theorem oversized_count_clamps_to_length (p f s : String)
    (recs : List PointRecord) (N : Int) (hs : pyInt s = some N)
    (hgt : (recs.length : Int) < N) :
    (inspectorMain [p, f, s] recs).recordLines = recs.length ∧
    (inspectorMain [p, f, s] recs).exitKind = ExitKind.normal := by
  have h3 := inspectorMain_three_eq p f s recs
  rw [hs] at h3
  rw [h3]
  refine ⟨?_, rfl⟩
  have h0 : 0 ≤ N := le_of_lt (lt_of_le_of_lt (Int.ofNat_nonneg _) hgt)
  show (pySlicePrefix N recs).length = recs.length
  rw [pySlicePrefix, if_pos h0]
  simp only [List.length_take]
  omega

/-- Witness for C10: asking for 999 lines of a 3-record file prints
exactly 3 record lines. -/
theorem oversized_count_clamps_to_length_witness :
    pyInt "999" = some 999 ∧
    (inspectorMain ["plyreaed.py", "frame.ply", "999"]
      [sampleRec1, sampleRec2, sampleRec3]).recordLines = 3 :=
  ⟨by decide,
    (oversized_count_clamps_to_length _ _ _ _ 999 (by decide) (by decide)).1⟩
